import Mathlib

/-!
Verification of the ClipSync clipboard-history core against its source.

The development shallowly embeds:
* `src/main/json-storage.ts` — the `JsonStorageManager` store (query, insert,
  eviction, update, delete, pin, settings);
* the clipboard monitor's content classifier (`detectContentType`,
  `generatePreview`, `asyncCategorizeContent` and the URL/email/phone/code
  detectors), including a small regular-expression evaluator used to model the
  JavaScript regex pattern libraries;
* the `settings:set` IPC handler branch of `src/main/index.ts` that re-runs
  eviction when `maxHistoryItems` changes.

JavaScript `Date` values are modelled as natural numbers (epoch milliseconds,
only ever compared via `getTime()` in the source).  JavaScript strings are
modelled as Lean `String`s; `substring`, `toLowerCase` and `includes` are
modelled on the character list.  Nonnegative JavaScript numbers (ids, limits,
offsets, timestamps) are modelled as `Nat`.
-/

namespace ClipSync

/-- The `ClipboardEntry` from `src/shared/types.ts`.  Optional (`?`) fields are
`Option`s; `createdAt`/`updatedAt` (`Date`) are epoch milliseconds. -/
structure ClipboardEntry where
  id : Nat
  content : String
  contentType : String
  format : String
  preview : Option String
  filePath : Option String
  appName : Option String
  createdAt : Nat
  updatedAt : Nat
  isPinned : Bool
  isFavorite : Bool
  category : Option String
  tags : List String
  usageCount : Nat
  lastUsedAt : Option Nat
  note : Option String
deriving Repr, DecidableEq

/-- The `GetHistoryOptions` from `src/shared/types.ts`, with the defaults the
destructuring in `getClipboardHistory` applies (`limit = 100`, `offset = 0`).
(The unused `dateRange` field is omitted: `getClipboardHistory` never reads
it.) -/
structure GetHistoryOptions where
  limit : Nat := 100
  offset : Nat := 0
  category : Option String := none
  contentType : Option String := none
  searchQuery : Option String := none
deriving Repr, DecidableEq

/-- The `sub` occurs as a contiguous run inside `l` (structural helper for
`jsIncludes`). -/
def hasInfix (l sub : List Char) : Bool :=
  match l with
  | [] => sub.isEmpty
  | _ :: t => sub.isPrefixOf l || hasInfix t sub

/-- JavaScript `a.includes(b)` on strings: `b` occurs as a contiguous
substring of `a`. -/
def jsIncludes (s sub : String) : Bool :=
  hasInfix s.data sub.data

/-- JavaScript `toLowerCase`, character by character (the source only ever
lower-cases for ASCII-insensitive comparisons). -/
def jsToLower (s : String) : String :=
  String.mk (s.data.map Char.toLower)

/-- JavaScript `s.substring(0, n)` (the only form the source uses). -/
def jsSubstring (s : String) (n : Nat) : String :=
  String.mk (s.data.take n)

/-- The `entry.category?.toLowerCase() === category.toLowerCase()` test of
the category filter (`json-storage.ts:150-152`); a missing `category` field
(`undefined`) never equals a string. -/
def categoryFilterPred (c : String) (e : ClipboardEntry) : Bool :=
  e.category.map jsToLower == some (jsToLower c)

/-- The search predicate of `getClipboardHistory` (`json-storage.ts:163-169`):
the lower-cased query must occur in `content`, `preview`, `category` or
`note` (optional fields that are `undefined` do not match). -/
def searchMatches (q : String) (e : ClipboardEntry) : Bool :=
  let query := jsToLower q
  jsIncludes (jsToLower e.content) query ||
    (match e.preview with
     | some p => jsIncludes (jsToLower p) query
     | none => false) ||
    (match e.category with
     | some c => jsIncludes (jsToLower c) query
     | none => false) ||
    (match e.note with
     | some n => jsIncludes (jsToLower n) query
     | none => false)

/-- The category-filter stage (`json-storage.ts:149-153`).  JavaScript
truthiness: an absent or empty `category`, or the literal `'all'`, disables
the filter. -/
def filterByCategory (category : Option String) (l : List ClipboardEntry) :
    List ClipboardEntry :=
  match category with
  | none => l
  | some c =>
    if c == "" || c == "all" then l
    else l.filter (categoryFilterPred c)

/-- The content-type-filter stage (`json-storage.ts:156-158`).  Note the
source compares the option against the entry's `format` field. -/
def filterByContentType (contentType : Option String) (l : List ClipboardEntry) :
    List ClipboardEntry :=
  match contentType with
  | none => l
  | some c =>
    if c == "" then l
    else l.filter (fun e => e.format == c)

/-- The search-filter stage (`json-storage.ts:161-170`). -/
def filterBySearch (searchQuery : Option String) (l : List ClipboardEntry) :
    List ClipboardEntry :=
  match searchQuery with
  | none => l
  | some q =>
    if q == "" then l
    else l.filter (searchMatches q)

/-- The `sort((a, b) => b.createdAt.getTime() - a.createdAt.getTime())` — a stable
sort by creation time, newest first.  ECMAScript `Array.prototype.sort` is
required to be stable, and a stable sort under a total preorder is a unique
function of its input, so any stable sorting algorithm models it; insertion
sort is used because it is stable and structurally recursive. -/
def sortByCreatedAtDesc (l : List ClipboardEntry) : List ClipboardEntry :=
  l.insertionSort (fun a b => b.createdAt ≤ a.createdAt)

/-- The `sort((a, b) => a.createdAt.getTime() - b.createdAt.getTime())` — stable
sort by creation time, oldest first (used by `enforceHistoryLimit`). -/
def sortByCreatedAtAsc (l : List ClipboardEntry) : List ClipboardEntry :=
  l.insertionSort (fun a b => a.createdAt ≤ b.createdAt)

/-- The `getClipboardHistory` (`json-storage.ts:135-189`): apply the three filter
stages, split into pinned / non-pinned, sort each newest-first, slice only
the non-pinned part (`slice(offset, offset + limit)`), and return all pinned
matches followed by the slice. -/
def getClipboardHistory (options : GetHistoryOptions)
    (entries : List ClipboardEntry) : List ClipboardEntry :=
  let filtered := filterBySearch options.searchQuery
    (filterByContentType options.contentType
      (filterByCategory options.category entries))
  let pinnedEntries := filtered.filter (fun e => e.isPinned)
  let nonPinnedEntries := filtered.filter (fun e => !e.isPinned)
  let pinnedSorted := sortByCreatedAtDesc pinnedEntries
  let nonPinnedSorted := sortByCreatedAtDesc nonPinnedEntries
  let limitedNonPinned := (nonPinnedSorted.drop options.offset).take options.limit
  pinnedSorted ++ limitedNonPinned

/-- The `Math.max(20, Math.min(100, maxHistoryItems))` (`json-storage.ts:219`). -/
def clampLimit (maxHistoryItems : Nat) : Nat :=
  max 20 (min 100 maxHistoryItems)

/-- The `enforceHistoryLimit` (`json-storage.ts:218-275`): clamp the limit to
`[20, 100]`; if the non-pinned count exceeds it, sort the non-pinned entries
oldest-first, collect the ids of the excess oldest ones, and drop every entry
whose id is in that list. -/
def enforceHistoryLimit (maxHistoryItems : Nat)
    (entries : List ClipboardEntry) : List ClipboardEntry :=
  let clampedLimit := clampLimit maxHistoryItems
  let nonPinnedEntries := entries.filter (fun e => !e.isPinned)
  let nonPinnedCount := nonPinnedEntries.length
  if nonPinnedCount > clampedLimit then
    let excessCount := nonPinnedCount - clampedLimit
    let sortedNonPinned := sortByCreatedAtAsc nonPinnedEntries
    let idsToDelete := (sortedNonPinned.take excessCount).map (fun e => e.id)
    entries.filter (fun e => !idsToDelete.contains e.id)
  else
    entries

/-- The `Omit<ClipboardEntry, 'id' | 'createdAt' | 'updatedAt'>` — the draft the
clipboard monitor hands to `addClipboardEntry`. -/
structure EntryDraft where
  content : String
  contentType : String
  format : String
  preview : Option String
  filePath : Option String
  appName : Option String
  isPinned : Bool
  isFavorite : Bool
  category : Option String
  tags : List String
  usageCount : Nat
  lastUsedAt : Option Nat
  note : Option String
deriving Repr, DecidableEq

/-- The in-memory state of `JsonStorageManager`: the entry array, the settings
record (only numeric settings are ever read by the store logic modelled here,
so the record is modelled as a string-to-number association list) and the
`nextId` counter. -/
structure StorageState where
  entries : List ClipboardEntry
  settings : List (String × Nat)
  nextId : Nat
deriving Repr, DecidableEq

/-- The `{...entry, id: this.nextId++, createdAt: new Date(), updatedAt: new
Date()}` construction of `addClipboardEntry`. -/
def draftToEntry (d : EntryDraft) (id now : Nat) : ClipboardEntry :=
  { id := id
    content := d.content
    contentType := d.contentType
    format := d.format
    preview := d.preview
    filePath := d.filePath
    appName := d.appName
    createdAt := now
    updatedAt := now
    isPinned := d.isPinned
    isFavorite := d.isFavorite
    category := d.category
    tags := d.tags
    usageCount := d.usageCount
    lastUsedAt := d.lastUsedAt
    note := d.note }

/-- The `addClipboardEntry` (`json-storage.ts:191-216`): build the new entry,
prepend it (`unshift`), and — only when the draft is not pinned — run
`enforceHistoryLimit` with the given limit.  Returns the saved entry and the
new store state.  (`now` stands for `new Date()`.) -/
def addClipboardEntry (d : EntryDraft) (maxHistoryItems : Nat) (now : Nat)
    (st : StorageState) : ClipboardEntry × StorageState :=
  let newEntry := draftToEntry d st.nextId now
  let entries1 := newEntry :: st.entries
  let entries2 :=
    if !d.isPinned then enforceHistoryLimit maxHistoryItems entries1
    else entries1
  (newEntry, { st with entries := entries2, nextId := st.nextId + 1 })

/-- The `Object.assign(entry, updates, {updatedAt, id, createdAt})`
(`json-storage.ts:286-290`): apply an arbitrary patch, then restore `id` and
`createdAt` and stamp `updatedAt`. -/
def applyEntryUpdates (updates : ClipboardEntry → ClipboardEntry) (now : Nat)
    (e : ClipboardEntry) : ClipboardEntry :=
  { updates e with id := e.id, createdAt := e.createdAt, updatedAt := now }

/-- The `updateClipboardEntry` (`json-storage.ts:277-295`): `findIndex` by id;
`-1` yields `null` and leaves the array untouched; otherwise the entry at the
found index is updated in place.  (The inner `none` branch is unreachable:
`findIdx?` always returns a valid index.) -/
def updateClipboardEntry (id : Nat) (updates : ClipboardEntry → ClipboardEntry)
    (now : Nat) (entries : List ClipboardEntry) :
    Option ClipboardEntry × List ClipboardEntry :=
  match entries.findIdx? (fun e => e.id == id) with
  | none => (none, entries)
  | some i =>
    match entries[i]? with
    | none => (none, entries)
    | some e =>
      let updated := applyEntryUpdates updates now e
      (some updated, entries.set i updated)

/-- The `deleteClipboardEntry` (`json-storage.ts:297-307`): filter the id out and
report whether the array shrank. -/
def deleteClipboardEntry (id : Nat) (entries : List ClipboardEntry) :
    Bool × List ClipboardEntry :=
  let initialLength := entries.length
  let newEntries := entries.filter (fun e => !(e.id == id))
  (decide (newEntries.length < initialLength), newEntries)

/-- The `pinClipboardEntry` (`json-storage.ts:309-321`): `find` by id; `null`
when absent; otherwise toggle `isPinned` and stamp `updatedAt` on the found
entry in place.  (The inner `none` branch is unreachable.) -/
def pinClipboardEntry (id : Nat) (now : Nat) (entries : List ClipboardEntry) :
    Option ClipboardEntry × List ClipboardEntry :=
  match entries.findIdx? (fun e => e.id == id) with
  | none => (none, entries)
  | some i =>
    match entries[i]? with
    | none => (none, entries)
    | some e =>
      let toggled := { e with isPinned := !e.isPinned, updatedAt := now }
      (some toggled, entries.set i toggled)

/-- The `JsonStorageManager.setSetting` (`json-storage.ts:354-358`), on the
association-list model of the settings record. -/
def setSetting (key : String) (value : Nat) (settings : List (String × Nat)) :
    List (String × Nat) :=
  (key, value) :: settings.filter (fun kv => !(kv.1 == key))

/-- The `getNonPinnedEntryCount` (`json-storage.ts:341-343`). -/
def getNonPinnedEntryCount (entries : List ClipboardEntry) : Nat :=
  (entries.filter (fun e => !e.isPinned)).length

/-- The `settings:set` IPC handler (`src/main/index.ts:806-825`), restricted
to its effect on the storage state: persist the setting, and when the key is
`maxHistoryItems` immediately run `enforceHistoryLimit` with the new value.
(The `autoStart` / `monitorClipboard` / `hideFromDock` branches act on
collaborators outside the store and leave `entries` untouched.) -/
def settingsSetHandler (key : String) (value : Nat) (st : StorageState) :
    StorageState :=
  let st1 := { st with settings := setSetting key value st.settings }
  if key == "maxHistoryItems" then
    { st1 with entries := enforceHistoryLimit value st1.entries }
  else
    st1

/-! ### A small evaluator for the JavaScript regular expressions of the
content classifier.

The detector methods of the clipboard monitor (`isURL`, `isEmail`,
`isPhoneNumber`, `isCode`) are lists of JavaScript regexes used only through
`RegExp.prototype.test`.  They use literals, character classes, `.`,
`[\s\S]`, `*`/`+`/`?`/bounded repetition, alternation, the `^`/`$` anchors
(none of the patterns carries the `m` flag, so the anchors mean begin/end of
input), `\b` word boundaries and the `i` and `s` flags.  The evaluator below
implements exactly this fragment; `reTest` has JavaScript `test` semantics
(match anywhere unless anchored). -/

/-- Left and right curly-brace characters (kept out of string literals). -/
def lbrace : Char := Char.ofNat 123

def rbrace : Char := Char.ofNat 125

/-- Regular-expression syntax: ε, a character class (as a predicate),
concatenation, alternation, Kleene star, the `^` and `$` anchors and `\b`. -/
inductive RE where
  | eps
  | cls (p : Char → Bool)
  | seq (a b : RE)
  | alt (a b : RE)
  | star (a : RE)
  | bol
  | eol
  | wordB

/-- Syntactic size of a regex, used to bound the evaluator's fuel. -/
def reSize : RE → Nat
  | .seq a b => reSize a + reSize b + 1
  | .alt a b => reSize a + reSize b + 1
  | .star a => reSize a + 1
  | _ => 1

/-- JavaScript `\w` / word characters (for `\b`). -/
def isWordChar (c : Char) : Bool :=
  (Char.ofNat 97 ≤ c && c ≤ Char.ofNat 122) ||
    (Char.ofNat 65 ≤ c && c ≤ Char.ofNat 90) ||
    (Char.ofNat 48 ≤ c && c ≤ Char.ofNat 57) || c == Char.ofNat 95

/-- The JavaScript `\s` class (ASCII part plus NBSP/BOM/LS/PS). -/
def isJsSpace (c : Char) : Bool :=
  c == Char.ofNat 32 || c == Char.ofNat 9 || c == Char.ofNat 10 ||
    c == Char.ofNat 13 || c == Char.ofNat 11 || c == Char.ofNat 12 ||
    c == Char.ofNat 160 || c == Char.ofNat 65279 ||
    c == Char.ofNat 8232 || c == Char.ofNat 8233

/-- Backtracking matcher in continuation-passing style.  `prev` is the
character preceding the current position (for `^` and `\b`); the continuation
receives the updated `prev` and the unread input.  The fuel only forces
termination: every recursive call spends one unit, and star iterations must
consume input, so any fuel above `reSize r + input length + 1` is neutral. -/
def reMatch : Nat → RE → Option Char → List Char →
    (Option Char → List Char → Bool) → Bool
  | 0, _, _, _, _ => false
  | fuel + 1, r, prev, cs, k =>
    match r with
    | .eps => k prev cs
    | .cls p =>
      match cs with
      | [] => false
      | c :: rest => p c && k (some c) rest
    | .seq a b => reMatch fuel a prev cs fun p2 cs2 => reMatch fuel b p2 cs2 k
    | .alt a b => reMatch fuel a prev cs k || reMatch fuel b prev cs k
    | .star a =>
      k prev cs ||
        reMatch fuel a prev cs fun p2 cs2 =>
          decide (cs2.length < cs.length) && reMatch fuel (.star a) p2 cs2 k
    | .bol => prev.isNone && k prev cs
    | .eol => cs.isEmpty && k prev cs
    | .wordB =>
      ((match prev with | some c => isWordChar c | none => false) !=
          (match cs with | c :: _ => isWordChar c | [] => false)) &&
        k prev cs

/-- Try a match starting at every position (JavaScript unanchored search). -/
def reSearch (fuel : Nat) (r : RE) : Option Char → List Char → Bool
  | prev, cs =>
    reMatch fuel r prev cs (fun _ _ => true) ||
      match cs with
      | [] => false
      | c :: rest => reSearch fuel r (some c) rest

/-- The `pattern.test(s)`. -/
def reTest (r : RE) (s : String) : Bool :=
  reSearch ((reSize r + 1) * (s.data.length + 2) + 16) r none s.data

/-- Literal character. -/
def rchar (c : Char) : RE := .cls (fun x => x == c)

/-- Literal character under the `i` flag. -/
def rcharCI (c : Char) : RE := .cls (fun x => x.toLower == c.toLower)

/-- Literal string. -/
def rstr (s : String) : RE := s.data.foldr (fun c r => .seq (rchar c) r) .eps

/-- Literal string under the `i` flag. -/
def rstrCI (s : String) : RE := s.data.foldr (fun c r => .seq (rcharCI c) r) .eps

/-- Concatenation of a pattern list. -/
def rcat (l : List RE) : RE := l.foldr .seq .eps

/-- A regex that never matches (empty alternation). -/
def rfail : RE := .cls fun _ => false

/-- The `(p1|p2|...)`. -/
def ralt (l : List RE) : RE :=
  match l with
  | [] => rfail
  | [r] => r
  | r :: rs => .alt r (ralt rs)

/-- The `r?`. -/
def ropt (r : RE) : RE := .alt r .eps

/-- The `r+`. -/
def rplus (r : RE) : RE := .seq r (.star r)

/-- The `r{n}`. -/
def rrep (r : RE) : Nat → RE
  | 0 => .eps
  | n + 1 => .seq r (rrep r n)

/-- The `r{0,n}`. -/
def ratMost (r : RE) : Nat → RE
  | 0 => .eps
  | n + 1 => .alt (.seq r (ratMost r n)) .eps

/-- The `r{lo,hi}`. -/
def rbetween (r : RE) (lo hi : Nat) : RE := .seq (rrep r lo) (ratMost r (hi - lo))

/-- The `r{lo,}`. -/
def ratLeast (r : RE) (lo : Nat) : RE := .seq (rrep r lo) (.star r)

/-- The `\s`. -/
def rspace : RE := .cls isJsSpace

/-- The `[^\s]` / `\S`. -/
def rnspace : RE := .cls fun c => !isJsSpace c

/-- The `\d` / `[0-9]`. -/
def rdigit : RE := .cls fun c => Char.ofNat 48 ≤ c && c ≤ Char.ofNat 57

/-- A character range `[lo-hi]`. -/
def rrange (lo hi : Char) : RE := .cls fun c => lo ≤ c && c ≤ hi

/-- An explicit character set `[...]`. -/
def rset (s : String) : RE := .cls fun c => s.data.contains c

/-- A negated character set `[^...]`. -/
def rnset (s : String) : RE := .cls fun c => !s.data.contains c

/-- The `.` without the `s` flag (anything but a line terminator). -/
def rany : RE :=
  .cls fun c =>
    !(c == Char.ofNat 10 || c == Char.ofNat 13 ||
      c == Char.ofNat 8232 || c == Char.ofNat 8233)

/-- The `[\s\S]` (and `.` under the `s` flag). -/
def ranyS : RE := .cls fun _ => true

/-- The `\w`. -/
def rword : RE := .cls isWordChar

/-- The `[\w-]`. -/
def rwordDash : RE := .cls fun c => isWordChar c || c == Char.ofNat 45

/-- The `[a-zA-Z]`. -/
def ralpha : RE :=
  .cls fun c =>
    (Char.ofNat 97 ≤ c && c ≤ Char.ofNat 122) ||
      (Char.ofNat 65 ≤ c && c ≤ Char.ofNat 90)

/-- The `[a-zA-Z0-9]`. -/
def ralnum : RE :=
  .cls fun c =>
    (Char.ofNat 97 ≤ c && c ≤ Char.ofNat 122) ||
      (Char.ofNat 65 ≤ c && c ≤ Char.ofNat 90) ||
      (Char.ofNat 48 ≤ c && c ≤ Char.ofNat 57)

/-- ASCII alphanumeric test (shared by several transcribed classes). -/
def isAsciiAlnum (c : Char) : Bool :=
  (Char.ofNat 97 ≤ c && c ≤ Char.ofNat 122) ||
    (Char.ofNat 65 ≤ c && c ≤ Char.ofNat 90) ||
    (Char.ofNat 48 ≤ c && c ≤ Char.ofNat 57)

/-- JavaScript `String.prototype.trim` (strip leading and trailing `\s`). -/
def jsTrim (s : String) : String :=
  String.mk (((s.data.dropWhile isJsSpace).reverse.dropWhile isJsSpace).reverse)

/-- The `text.replace(/\s+/g, ' ')`: collapse every whitespace run; the fuel
(initialised to the input length, which every step shrinks) only forces
structural termination. -/
def collapseWhitespaceAux : Nat → List Char → List Char
  | 0, cs => cs
  | _ + 1, [] => []
  | fuel + 1, c :: rest =>
    if isJsSpace c then
      Char.ofNat 32 :: collapseWhitespaceAux fuel (rest.dropWhile isJsSpace)
    else c :: collapseWhitespaceAux fuel rest

/-- See `collapseWhitespaceAux`. -/
def collapseWhitespace (cs : List Char) : List Char :=
  collapseWhitespaceAux cs.length cs

/-! ### The content detectors of the clipboard monitor (`ClipboardMonitor`) -/

/-- Modelled from the spec: the "attempt strict URL parsing first" step of
URL detection — the platform's WHATWG `URL` constructor, which the source
invokes as `new URL(text)` and whose implementation is not part of this
repository.  Simplified model: the input (after trimming) must start with a
scheme `[A-Za-z][A-Za-z0-9+.-]*` followed by `:`; for the special schemes
(`http`, `https`, `ws`, `wss`, `ftp`, `file`) a nonempty, whitespace-free
host must follow; any other scheme accepts the remainder. -/
def urlCtorOk (text : String) : Bool :=
  let isSchemeStart : Char → Bool := fun c =>
    (Char.ofNat 97 ≤ c && c ≤ Char.ofNat 122) ||
      (Char.ofNat 65 ≤ c && c ≤ Char.ofNat 90)
  let isSchemeChar : Char → Bool := fun c =>
    isSchemeStart c || (Char.ofNat 48 ≤ c && c ≤ Char.ofNat 57) ||
      c == Char.ofNat 43 || c == Char.ofNat 45 || c == Char.ofNat 46
  match (jsTrim text).data with
  | [] => false
  | c :: rest =>
    isSchemeStart c &&
      (let schemeTail := rest.takeWhile isSchemeChar
       let afterScheme := rest.drop schemeTail.length
       match afterScheme with
       | colon :: tail =>
         colon == Char.ofNat 58 &&
           (let scheme := String.mk ((c :: schemeTail).map Char.toLower)
            if ["http", "https", "ws", "wss", "ftp", "file"].contains scheme
            then
              let hostPart := tail.dropWhile (fun ch => ch == Char.ofNat 47)
              let host := hostPart.takeWhile fun ch =>
                !(ch == Char.ofNat 47 || ch == Char.ofNat 63 ||
                  ch == Char.ofNat 35)
              !host.isEmpty && host.all fun ch => !isJsSpace ch
            else true)
       | [] => false)

/-- A DNS label `[a-zA-Z0-9]([a-zA-Z0-9-]{0,61}[a-zA-Z0-9])?` (shared by the
domain-only URL pattern and the first email pattern). -/
def rDnsLabel : RE :=
  rcat [ralnum,
    ropt (.seq (rbetween (.cls fun c => isAsciiAlnum c || c == Char.ofNat 45)
      0 61) ralnum)]

/-- The `urlPatterns` array of `ClipboardMonitor.isURL`
(`part_005:465-482`), in order:
`/^https?:\/\/[^\s]+$/i`, `/^www\.[^\s]+\.[a-z]{2,}$/i`, the domain-only
pattern, `/^https?:\/\/[^\s]+:[0-9]+/i`, `/^ftp:\/\/[^\s]+$/i`,
`/^file:\/\/[^\s]+$/i`, `/^https?:\/\/[^\s]+\?[^\s]+$/i`,
`/^https?:\/\/[^\s]+#[^\s]+$/i`. -/
def urlPatterns : List RE :=
  [ rcat [.bol, rstrCI "http", ropt (rcharCI 's'), rstr "://",
      rplus rnspace, .eol]
  , rcat [.bol, rstrCI "www.", rplus rnspace, rchar '.',
      ratLeast (.cls fun c =>
        (Char.ofNat 97 ≤ c.toLower && c.toLower ≤ Char.ofNat 122)) 2, .eol]
  , rcat [.bol, rDnsLabel, .star (.seq (rchar '.') rDnsLabel),
      rchar '.', ratLeast ralpha 2, .eol]
  , rcat [.bol, rstrCI "http", ropt (rcharCI 's'), rstr "://",
      rplus rnspace, rchar ':', rplus rdigit]
  , rcat [.bol, rstrCI "ftp://", rplus rnspace, .eol]
  , rcat [.bol, rstrCI "file://", rplus rnspace, .eol]
  , rcat [.bol, rstrCI "http", ropt (rcharCI 's'), rstr "://",
      rplus rnspace, rchar '?', rplus rnspace, .eol]
  , rcat [.bol, rstrCI "http", ropt (rcharCI 's'), rstr "://",
      rplus rnspace, rchar '#', rplus rnspace, .eol] ]

/-- The `ClipboardMonitor.isURL` (`part_005:455-492`): the `URL`-constructor
attempt, falling back to the pattern list tested against `text.trim()`. -/
def isURL (text : String) : Bool :=
  urlCtorOk text || urlPatterns.any fun p => reTest p (jsTrim text)

/-- The local-part class of the first email pattern,
`[a-zA-Z0-9.!#$%&'*+/=?^_`{|}~-]` (apostrophe, backtick and braces written
via escapes). -/
def rEmailLocal1 : RE :=
  .cls fun c =>
    isAsciiAlnum c || ".!#$%&*+/=?^_~-\x27\x60\x7b\x7c\x7d".data.contains c

/-- The `[a-zA-Z0-9._%+-]`. -/
def rEmailLocal2 : RE := .cls fun c => isAsciiAlnum c || "._%+-".data.contains c

/-- The `[a-zA-Z0-9.-]`. -/
def rEmailDomain : RE := .cls fun c => isAsciiAlnum c || ".-".data.contains c

/-- The `emailPatterns` array of `ClipboardMonitor.isEmail`
(`part_005:498-505`): standard RFC-like, plus-addressing, subdomain. -/
def emailPatterns : List RE :=
  [ rcat [.bol, rplus rEmailLocal1, rchar '@', rDnsLabel,
      .star (.seq (rchar '.') rDnsLabel), .eol]
  , rcat [.bol, rplus rEmailLocal2, rchar '+', rplus rEmailLocal2,
      rchar '@', rplus rEmailDomain, rchar '.', ratLeast ralpha 2,
      .eol]
  , rcat [.bol, rplus rEmailLocal2, rchar '@', rplus rEmailDomain,
      rchar '.', rplus (.cls fun c => isAsciiAlnum c ||
        ".-".data.contains c), rchar '.', ratLeast ralpha 2, .eol] ]

/-- The `ClipboardMonitor.isEmail` (`part_005:494-514`): any pattern matches
`text.trim()`. -/
def isEmail (text : String) : Bool :=
  emailPatterns.any fun p => reTest p (jsTrim text)

/-- The `[-.\s]` (NANP separators). -/
def rsepNANP : RE :=
  .cls fun c => c == Char.ofNat 45 || c == Char.ofNat 46 || isJsSpace c

/-- The `[-\s]`. -/
def rsepDashSpace : RE := .cls fun c => c == Char.ofNat 45 || isJsSpace c

/-- The `(\+CC\s?|0)` — country-code alternative used by many phone patterns. -/
def rCC (cc : String) : RE :=
  .alt (rcat [rchar '+', rstr cc, ropt rspace]) (rchar '0')

/-- The `phonePatterns` array of `ClipboardMonitor.isPhoneNumber`
(`part_005:520-586`), in source order: NANP, E.164, UK, Germany, France,
Italy, Spain, China, Japan, India, South Korea, Australia, New Zealand, UAE,
Saudi Arabia, South Africa, Nigeria, Mexico, Brazil, Argentina, the generic
international pattern and the permissive separator-tolerant fallback. -/
def phonePatterns : List RE :=
  [ rcat [.bol,
      ropt (rcat [ropt (rchar '+'), rchar '1', ropt rsepNANP]),
      ropt (rchar '('), rrange '2' '9',
      rrange '0' '8', rdigit, ropt (rchar ')'),
      ropt rsepNANP, rrange '2' '9', rrep rdigit 2, ropt rsepNANP,
      rrep rdigit 4, .eol]
  , rcat [.bol, rchar '+', rrange '1' '9',
      rbetween rdigit 1 14, .eol]
  , rcat [.bol, rCC "44", rrange '1' '9', rbetween rdigit 8 9, .eol]
  , rcat [.bol, rCC "49", rrange '1' '9', rbetween rdigit 7 11,
      .eol]
  , rcat [.bol, rCC "33", rrange '1' '9',
      rrep (rcat [ropt rspace, rrep rdigit 2]) 4, .eol]
  , rcat [.bol, rCC "39", rbetween rdigit 2 3, ropt rspace,
      rbetween rdigit 6 8, .eol]
  , rcat [.bol, ropt (rCC "34"), rrange '6' '9', rrep rdigit 8,
      .eol]
  , rcat [.bol, ropt (rCC "86"), rchar '1', rrange '3' '9',
      rrep rdigit 9, .eol]
  , rcat [.bol, rCC "81", rrange '7' '9', rchar '0',
      ropt rsepDashSpace, rrep rdigit 4, ropt rsepDashSpace, rrep rdigit 4,
      .eol]
  , rcat [.bol, ropt (rCC "91"), rrange '6' '9', rrep rdigit 9,
      .eol]
  , rcat [.bol, ropt (rCC "82"), rstr "10", ropt rsepDashSpace, rrep rdigit 4,
      ropt rsepDashSpace, rrep rdigit 4, .eol]
  , rcat [.bol, ropt (rCC "61"), rchar '4', rrep rdigit 8, .eol]
  , rcat [.bol, ropt (rCC "64"), rchar '2', rrange '0' '9',
      ropt rspace, rrep rdigit 3, rbetween rdigit 3 4, .eol]
  , rcat [.bol, ropt (rCC "971"), rchar '5', rrange '0' '9',
      ropt rspace, rrep rdigit 3, ropt rspace, rrep rdigit 4, .eol]
  , rcat [.bol, ropt (rCC "966"), rchar '5', rrange '0' '9',
      ropt rspace, rrep rdigit 3, ropt rspace, rrep rdigit 4, .eol]
  , rcat [.bol, ropt (rCC "27"), rrange '6' '8',
      rrange '0' '9', ropt rspace, rrep rdigit 3, ropt rspace,
      rrep rdigit 4, .eol]
  , rcat [.bol, ropt (rCC "234"), rrange '7' '9',
      rrange '0' '1', rdigit, ropt rspace, rrep rdigit 3,
      ropt rspace, rrep rdigit 4, .eol]
  , rcat [.bol, ropt (rCC "52"), rrange '1' '9', rdigit,
      ropt rspace, rrep rdigit 4, ropt rspace, rrep rdigit 4, .eol]
  , rcat [.bol, ropt (rCC "55"), rrep (rrange '1' '9') 2,
      ropt rspace, ropt (rchar '9'), rrep rdigit 4, ropt rsepDashSpace,
      rrep rdigit 4, .eol]
  , rcat [.bol, ropt (rCC "54"), rbetween (rrange '1' '9') 2 4,
      ropt rspace, rrep rdigit 4, ropt rsepDashSpace, rrep rdigit 4, .eol]
  , rcat [.bol, ropt (rchar '+'), rrange '1' '9',
      rbetween rdigit 6 14, .eol]
  , rcat [.bol, ropt (rchar '+'),
      ratLeast (.cls fun c =>
        (Char.ofNat 48 ≤ c && c ≤ Char.ofNat 57) || isJsSpace c ||
          c == Char.ofNat 45 || c == Char.ofNat 40 || c == Char.ofNat 41 ||
          c == Char.ofNat 46) 7, .eol] ]

/-- The `ClipboardMonitor.isPhoneNumber` (`part_005:516-597`): patterns are
tested against `text.trim().replace(/\s+/g, ' ')`. -/
def isPhoneNumber (text : String) : Bool :=
  let cleanText := String.mk (collapseWhitespace (jsTrim text).data)
  phonePatterns.any fun p => reTest p cleanText

/-- The `^(w1|w2|...)\s` — leading-keyword pattern shared by many code
detectors. -/
def rKw (ws : List String) : RE :=
  rcat [.bol, ralt (ws.map rstr), rspace]

/-- The `^(w1|w2|...)\s+`. -/
def rKwPlus (ws : List String) : RE :=
  rcat [.bol, ralt (ws.map rstr), rplus rspace]

/-- The `^(w1|w2|...)\s*[\(\{]`. -/
def rKwParen (ws : List String) : RE :=
  rcat [.bol, ralt (ws.map rstr), .star rspace, rset "(\x7b"]

/-- The `^\/\/.*$` — a line comment spanning the whole input. -/
def rLineComment : RE := rcat [.bol, rstr "//", .star rany, .eol]

/-- The `\/\*[\s\S]*?\*\//` — a block comment. -/
def rBlockComment : RE := rcat [rstr "/*", .star ranyS, rstr "*/"]

/-- The `codePatterns` array of `ClipboardMonitor.isCode`
(`part_005:603-758`), transcribed in source order (the source repeats some
comment patterns across language groups; the repetitions are kept). -/
def codePatterns : List RE :=
  [ -- JavaScript/TypeScript
    rKw ["function", "const", "let", "var", "class", "interface", "type",
      "enum", "import", "export", "async", "await", "return"]
  , rKwParen ["if", "else", "for", "while", "switch", "case", "try", "catch",
      "finally"]
  , rcat [rstr "=>", .star rspace, rset "\x7b("]
  , .alt rLineComment (.seq (rcat [.bol, rstr "/*", .star ranyS]) (rstr "*/"))
  , rcat [rstr "console.", ralt [rstr "log", rstr "error", rstr "warn",
      rstr "info"], .star rspace, rchar '(']
  , rcat [rstr "document.", ralt [rstr "getElementById", rstr "querySelector",
      rstr "createElement"]]
  , ralt [rstr "window.", rstr "localStorage.", rstr "sessionStorage."]
    -- Python
  , rKw ["def", "class", "import", "from", "if", "elif", "else", "for",
      "while", "try", "except", "finally", "with", "as"]
  , rcat [.bol, rchar '#', .star rany, .eol]
  , rcat [rstr "print", .star rspace, rchar '(']
  , rcat [.bol, rchar '@', rplus rword]
  , rcat [.bol, .star rspace, ralt [rstr "def", rstr "class"], rplus rspace,
      rplus rword, .star rany, rchar ':']
    -- Java/C#/C++
  , rKw ["public", "private", "protected", "static", "final", "abstract",
      "class", "interface", "enum"]
  , rKwParen ["if", "else", "for", "while", "switch", "case", "try", "catch",
      "finally"]
  , rcat [rstr "System.", ralt [rstr "out.print", rstr "err.print"]]
  , rcat [rstr "Console.", ralt [rstr "WriteLine", rstr "Write"]]
  , rcat [.bol, rstr "#include", .star rspace, rchar '<', .star rany,
      rchar '>']
  , rcat [.bol, rstr "using", rplus rspace,
      ropt (.seq (rstr "namespace") (rplus rspace)),
      rplus (.cls fun c => isWordChar c || c == '.'), rchar ';']
    -- Go
  , rKw ["package", "import", "func", "var", "const", "type", "struct",
      "interface"]
  , rcat [rstr "fmt.", ralt [rstr "Print", rstr "Printf", rstr "Println"]]
  , rLineComment
    -- Rust
  , rKw ["fn", "let", "mut", "const", "struct", "enum", "impl", "trait",
      "use", "mod", "pub"]
  , rcat [rstr "println!", .star rspace, rchar '(']
  , rLineComment
    -- PHP
  , rcat [.bol, rstr "<?php"]
  , rcat [.bol, rchar '$', rplus rword, .star rspace, rchar '=']
  , rcat [rstr "echo", rplus rspace]
  , rcat [rstr "function", rplus rspace, rplus rword, .star rspace, rchar '(']
    -- Ruby
  , rKw ["def", "class", "module", "require", "include", "if", "elsif",
      "else", "unless", "case", "when"]
  , rcat [rstr "puts", rplus rspace]
  , rcat [.bol, rchar '#', .star rany, .eol]
    -- Swift
  , rKw ["func", "var", "let", "class", "struct", "enum", "protocol",
      "import"]
  , rcat [rstr "print", .star rspace, rchar '(']
  , rLineComment
    -- Kotlin
  , rKw ["fun", "val", "var", "class", "interface", "object", "package",
      "import"]
  , rcat [rstr "println", .star rspace, rchar '(']
  , rLineComment
    -- Scala
  , rKw ["def", "val", "var", "class", "trait", "object", "package",
      "import"]
  , rcat [rstr "println", .star rspace, rchar '(']
  , rLineComment
    -- HTML/XML/JSX
  , rcat [.bol, rchar '<', ralpha, .star (rnset ">"), rchar '>', .star ranyS,
      rstr "</", ralpha, .star (rnset ">"), rchar '>', .eol]
  , rcat [.bol, rchar '<', ralpha, .star (rnset ">"), ropt (rchar '/'),
      rchar '>']
  , rcat [.bol, rstr "<!", .star rspace, rstrCI "DOCTYPE", rplus rspace,
      rstrCI "html"]
  , rcat [.bol, rstrCI "<?xml", rplus rspace, rstrCI "version"]
  , rcat [rstr "className", .star rspace, rchar '=', .star rspace,
      rset "\"\x27"]
  , rcat [rstr "onClick", .star rspace, rchar '=', .star rspace, rset "\x7b"]
    -- CSS/SCSS/LESS
  , rcat [.bol, ropt (rset ".#"), rplus rwordDash, .star rspace, rset "\x7b"]
  , rcat [.bol, rchar '@', ralt [rstr "import", rstr "media",
      rstr "keyframes", rstr "mixin", rstr "include", rstr "extend"]]
  , rcat [rchar ':', .star rspace, rplus rwordDash, .star rspace, rchar ';']
  , rcat [.bol, rstr "/*", .star ranyS, rstr "*/"]
  , rcat [rchar '$', rplus rwordDash, .star rspace, rchar ':']
  , rcat [rstr "&:", rplus rwordDash]
    -- Markdown
  , rcat [.bol, rbetween (rchar '#') 1 6, rplus rspace]
  , rcat [.bol, rbetween (rchar '*') 1 2, rplus (rnset "*"),
      rbetween (rchar '*') 1 2]
  , rcat [.bol, rchar '[', .star rany, rchar ']', rchar '(', .star rany,
      rchar ')']
  , rcat [.bol, rstr "\x60\x60\x60", .star rword, .eol]
  , rcat [.bol, rchar '>', rplus rspace]
  , rcat [.bol, rset "-*+", rplus rspace]
    -- JSON
  , rcat [.bol, .star rspace, rset "\x7b", .star ranyS, rset "\x7d",
      .star rspace, .eol]
  , rcat [.bol, .star rspace, rchar '[', .star ranyS, rchar ']', .star rspace,
      .eol]
  , rcat [rchar '"', rplus rwordDash, rchar '"', .star rspace, rchar ':',
      .star rspace]
    -- YAML
  , rcat [.bol, rplus rwordDash, .star rspace, rchar ':', .star rspace]
  , rcat [.bol, rchar '-', rplus rspace, rplus rwordDash]
  , rcat [.bol, rstr "---", .star rspace, .eol]
    -- SQL
  , rcat [.bol, ralt (["SELECT", "INSERT", "UPDATE", "DELETE", "CREATE",
      "ALTER", "DROP", "TRUNCATE"].map rstrCI), rplus rspace]
  , rcat [.wordB, ralt (["FROM", "WHERE", "JOIN", "GROUP BY", "ORDER BY",
      "HAVING", "LIMIT"].map rstrCI), .wordB]
  , rcat [.bol, rstr "--", .star rany, .eol]
    -- Configuration files
  , rcat [.bol, rchar '[',
      rplus (.cls fun c => isWordChar c || isJsSpace c || c == '-'),
      rchar ']', .eol]
  , rcat [.bol, rplus rwordDash, .star rspace, rchar '=', .star rspace]
    -- Shell/Bash
  , rcat [.bol, rstr "#!"]
  , rcat [.bol, rchar '$', .star rspace]
  , rKwPlus ["echo", "ls", "cd", "mkdir", "rm", "cp", "mv", "grep", "find",
      "awk", "sed"]
  , rcat [rchar '|', .star rspace, rplus rword]
    -- PowerShell
  , rcat [.bol, ralt [rstr "Get-", rstr "Set-", rstr "New-", rstr "Remove-"],
      rplus rword]
  , rcat [rstr "Write-Host", rplus rspace]
  , rcat [.bol, rchar '$', rplus rword, .star rspace, rchar '=']
    -- Docker
  , rKwPlus ["FROM", "RUN", "COPY", "ADD", "WORKDIR", "EXPOSE", "CMD",
      "ENTRYPOINT"]
    -- Git
  , rcat [.bol, rstr "git", rplus rspace, ralt (["add", "commit", "push",
      "pull", "clone", "checkout", "branch", "merge", "rebase"].map rstr)]
    -- API/HTTP patterns
  , rKwPlus ["GET", "POST", "PUT", "DELETE", "PATCH", "HEAD", "OPTIONS"]
  , rcat [.bol, rstr "HTTP/", rdigit, rchar '.', rdigit, rplus rspace,
      rrep rdigit 3]
  , rcat [rstr "Content-Type", .star rspace, rchar ':', .star rspace]
  , rcat [rstr "Authorization", .star rspace, rchar ':', .star rspace]
    -- Testing patterns
  , rcat [.bol, ralt (["describe", "it", "test", "expect", "assert"].map
      rstr), .star rspace, rchar '(']
  , ralt [rcat [rstr "beforeEach", .star rspace, rchar '('],
      rcat [rstr "afterEach", .star rspace, rchar '(']]
  , ralt [rstr "jest.", rstr "mocha.", rstr "chai."]
    -- Async patterns
  , ralt [rcat [rstr "async", rplus rspace, rstr "function"],
      rcat [.wordB, rstr "async", .star rspace, rchar '(']]
  , rcat [rstr "await", rplus rspace, rplus rword]
  , rcat [rstr "Promise.", ralt (["resolve", "reject", "all", "race"].map
      rstr)]
  , ralt [rcat [rstr ".then", .star rspace, rchar '('],
      rcat [rstr ".catch", .star rspace, rchar '(']]
    -- Error handling
  , rcat [rstr "try", .star rspace, rset "\x7b", .star ranyS, rset "\x7d",
      .star rspace, rstr "catch"]
  , rcat [rstr "throw", rplus rspace, rstr "new", rplus rspace, rplus rword,
      rstr "Error"]
  , rcat [rstr "except", rplus rspace, rplus rword, rstr "Error:"]
    -- Loops and conditionals
  , rKwParen ["for", "while", "do"]
  , rcat [.bol, ralt [rstr "if", rcat [rstr "else", rplus rspace, rstr "if"],
      rstr "elif", rstr "unless"], .star rspace, rset "(\x7b"]
  , rcat [rstr "switch", .star rspace, rchar '(', .star (rnset ")"),
      rchar ')', .star rspace, rset "\x7b"]
    -- Generic programming patterns
  , rcat [rplus rword, .star rspace, rchar '(', .star (rnset ")"), rchar ')',
      .star rspace, rset "\x7b"]
  , rcat [rplus rword, .star rspace, rchar '=', .star rspace, rstr "function"]
  , rcat [rstr "new", rplus rspace, rplus rword, .star rspace, rchar '(']
  , rcat [rplus rword, rchar '.', rplus rword, .star rspace, rchar '(']
  , rcat [rplus rword, rchar '[', .star rword, rchar ']', .star rspace,
      rchar '=']
  , .alt rBlockComment (rcat [rstr "//", .star rany, .eol]) ]

/-- The `ClipboardMonitor.isCode` (`part_005:599-768`): any pattern matches the
raw text. -/
def isCode (text : String) : Bool :=
  codePatterns.any fun p => reTest p text

/-- The `detectContentType` (`part_005:222-274`): image/file/html/rtf formats map
to fixed types without looking at the content; plain text runs the URL →
email → phone → code detectors in order, defaulting to `text`. -/
def detectContentType (content : String) (format : String) : String :=
  if format == "image" then "image"
  else if format == "file" then "file"
  else if format == "html" then "rich-text"
  else if format == "rtf" then "rich-text"
  else if isURL content then "url"
  else if isEmail content then "email"
  else if isPhoneNumber content then "phone"
  else if isCode content then "code"
  else "text"

/-! ### The markup-stripping helpers behind `generatePreview`.

Each global regex replace of `extractCleanTextFromHTML` /
`extractTextFromRTF` is modelled by a left-to-right scanner.  The recursions
carry explicit fuel (initialised to the input length, which bounds the number
of steps since every step consumes at least one character). -/

/-- Case-insensitive (`ci = true`) or exact literal prefix match, returning
the input after the literal. -/
def matchDrop (ci : Bool) : List Char → List Char → Option (List Char)
  | [], cs => some cs
  | _ :: _, [] => none
  | p :: ps, c :: cs =>
    if (if ci then p.toLower == c.toLower else p == c) then matchDrop ci ps cs
    else none

/-- Drop the input through the first occurrence of a literal (the lazy
`[\s\S]*?literal`); `none` when the literal never occurs. -/
def dropThrough (ci : Bool) (pat : List Char) : List Char → Option (List Char)
  | [] => matchDrop ci pat []
  | c :: t =>
    match matchDrop ci pat (c :: t) with
    | some rest => some rest
    | none => dropThrough ci pat t

/-- Drop the input through the first occurrence of a single character
(`[^c]*c`). -/
def dropThroughChar (stop : Char) : List Char → Option (List Char)
  | [] => none
  | c :: t => if c == stop then some t else dropThroughChar stop t

/-- One global replace `openTag[^>]*>[\s\S]*?closeTag → ''` (the
`<script...>...</script>` and `<style...>...</style>` removals, `gi`). -/
def removeElementBlocksAux (openTag closeTag : List Char) :
    Nat → List Char → List Char
  | 0, cs => cs
  | _ + 1, [] => []
  | fuel + 1, c :: rest =>
    match matchDrop true openTag (c :: rest) with
    | none => c :: removeElementBlocksAux openTag closeTag fuel rest
    | some afterOpen =>
      match dropThroughChar '>' afterOpen with
      | none => c :: removeElementBlocksAux openTag closeTag fuel rest
      | some afterGt =>
        match dropThrough true closeTag afterGt with
        | none => c :: removeElementBlocksAux openTag closeTag fuel rest
        | some rest2 => removeElementBlocksAux openTag closeTag fuel rest2

/-- See `removeElementBlocksAux`. -/
def removeElementBlocks (openTag closeTag : String) (cs : List Char) :
    List Char :=
  removeElementBlocksAux openTag.data closeTag.data cs.length cs

/-- One global replace `open[\s\S]*?close → ''` (the `<!--...-->` comment
removal). -/
def removeDelimitedAux (ci : Bool) (openPat closePat : List Char) :
    Nat → List Char → List Char
  | 0, cs => cs
  | _ + 1, [] => []
  | fuel + 1, c :: rest =>
    match matchDrop ci openPat (c :: rest) with
    | none => c :: removeDelimitedAux ci openPat closePat fuel rest
    | some afterOpen =>
      match dropThrough ci closePat afterOpen with
      | none => c :: removeDelimitedAux ci openPat closePat fuel rest
      | some rest2 => removeDelimitedAux ci openPat closePat fuel rest2

/-- See `removeDelimitedAux`. -/
def removeDelimited (ci : Bool) (openPat closePat : String) (cs : List Char) :
    List Char :=
  removeDelimitedAux ci openPat.data closePat.data cs.length cs

/-- The global replace `<[^>]*> → ''`: drop every angle-bracket tag; a `<`
with no later `>` stays (the regex cannot match it). -/
def removeTagsAux : Nat → List Char → List Char
  | 0, cs => cs
  | _ + 1, [] => []
  | fuel + 1, c :: rest =>
    if c == '<' then
      match dropThroughChar '>' rest with
      | some after => removeTagsAux fuel after
      | none => c :: removeTagsAux fuel rest
    else c :: removeTagsAux fuel rest

/-- See `removeTagsAux`. -/
def removeTags (cs : List Char) : List Char := removeTagsAux cs.length cs

/-- The global replace `\n\s*\n → '\n'`.  The greedy `\s*` extends through
the last newline of the whitespace run following a newline; scanning resumes
after the match. -/
def removeEmptyLinesAux : Nat → List Char → List Char
  | 0, cs => cs
  | _ + 1, [] => []
  | fuel + 1, c :: rest =>
    if c == '\n' then
      let w := rest.takeWhile isJsSpace
      if w.contains '\n' then
        let afterLastNl := (w.reverse.takeWhile (fun x => !(x == '\n'))).length
        '\n' :: removeEmptyLinesAux fuel (rest.drop (w.length - afterLastNl))
      else c :: removeEmptyLinesAux fuel rest
    else c :: removeEmptyLinesAux fuel rest

/-- See `removeEmptyLinesAux`. -/
def removeEmptyLines (cs : List Char) : List Char :=
  removeEmptyLinesAux cs.length cs

/-- The `extractCleanTextFromHTML` (`part_005:307-343`): strip script/style
blocks, comments and tags, decode the six handled entities, collapse
whitespace, drop empty lines and trim.  (The `catch` fallback is dead code in
this total model.) -/
def extractCleanTextFromHTML (html : String) : String :=
  let cs := html.data
  let cs := removeElementBlocks "<script" "</script>" cs
  let cs := removeElementBlocks "<style" "</style>" cs
  let cs := removeDelimited false "<!--" "-->" cs
  let cs := removeTags cs
  let s := String.mk cs
  let s := s.replace "&nbsp;" "  "
  let s := s.replace "&amp;" "&"
  let s := s.replace "&lt;" "<"
  let s := s.replace "&gt;" ">"
  let s := s.replace "&quot;" "\""
  let s := s.replace "&#39;" "\x27"
  let s := s.replace "&apos;" "\x27"
  let cs2 := collapseWhitespace s.data
  let cs2 := removeEmptyLines cs2
  jsTrim (String.mk cs2)

/-- The anchored replace `^{\s*\\rtf1[^}]*} → ''` (header removal; the `^`
anchor without the `m` flag allows at most one match, at the start). -/
def removeRtfHeader (cs : List Char) : List Char :=
  match cs with
  | [] => []
  | c :: rest =>
    if c == lbrace then
      match matchDrop false "\\rtf1".data (rest.dropWhile isJsSpace) with
      | none => cs
      | some afterWord =>
        match dropThroughChar rbrace afterWord with
        | none => cs
        | some after => after
    else cs

/-- One global replace `{\s*\\word[^}]*} → ''` (the fonttbl / colortbl /
stylesheet group removals). -/
def removeRtfGroupAux (word : List Char) : Nat → List Char → List Char
  | 0, cs => cs
  | _ + 1, [] => []
  | fuel + 1, c :: rest =>
    if c == lbrace then
      match matchDrop false word (rest.dropWhile isJsSpace) with
      | none => c :: removeRtfGroupAux word fuel rest
      | some afterWord =>
        match dropThroughChar rbrace afterWord with
        | none => c :: removeRtfGroupAux word fuel rest
        | some after => removeRtfGroupAux word fuel after
    else c :: removeRtfGroupAux word fuel rest

/-- See `removeRtfGroupAux`. -/
def removeRtfGroup (word : String) (cs : List Char) : List Char :=
  removeRtfGroupAux word.data cs.length cs

/-- The global replace `\\[a-z]+\d*\s? → ' '` (RTF control words). -/
def removeRtfControlWordsAux : Nat → List Char → List Char
  | 0, cs => cs
  | _ + 1, [] => []
  | fuel + 1, c :: rest =>
    if c == '\\' then
      let letters := rest.takeWhile fun x => 'a' ≤ x && x ≤ 'z'
      if letters.isEmpty then c :: removeRtfControlWordsAux fuel rest
      else
        let afterLetters := rest.drop letters.length
        let digits := afterLetters.takeWhile fun x => '0' ≤ x && x ≤ '9'
        let afterDigits := afterLetters.drop digits.length
        let afterSp :=
          match afterDigits with
          | s :: t => if isJsSpace s then t else afterDigits
          | [] => []
        ' ' :: removeRtfControlWordsAux fuel afterSp
    else c :: removeRtfControlWordsAux fuel rest

/-- See `removeRtfControlWordsAux`. -/
def removeRtfControlWords (cs : List Char) : List Char :=
  removeRtfControlWordsAux cs.length cs

/-- The global replace `\\[^a-z\s] → ''` (RTF control symbols). -/
def removeRtfControlSymsAux : Nat → List Char → List Char
  | 0, cs => cs
  | _ + 1, [] => []
  | fuel + 1, c :: rest =>
    if c == '\\' then
      match rest with
      | [] => [c]
      | x :: t =>
        if !('a' ≤ x && x ≤ 'z') && !isJsSpace x then
          removeRtfControlSymsAux fuel t
        else c :: removeRtfControlSymsAux fuel rest
    else c :: removeRtfControlSymsAux fuel rest

/-- See `removeRtfControlSymsAux`. -/
def removeRtfControlSyms (cs : List Char) : List Char :=
  removeRtfControlSymsAux cs.length cs

/-- The `extractTextFromRTF` (`part_005:345-372`): strip the RTF header, the
fonttbl/colortbl/stylesheet groups, control words (to spaces) and control
symbols, drop braces, collapse whitespace and trim. -/
def extractTextFromRTF (rtf : String) : String :=
  let cs := rtf.data
  let cs := removeRtfHeader cs
  let cs := removeRtfGroup "\\fonttbl" cs
  let cs := removeRtfGroup "\\colortbl" cs
  let cs := removeRtfGroup "\\stylesheet" cs
  let cs := removeRtfControlWords cs
  let cs := removeRtfControlSyms cs
  let cs := cs.filter fun c => !(c == lbrace || c == rbrace)
  jsTrim (String.mk (collapseWhitespace cs))

/-- The `generatePreview` (`part_005:276-304`): fixed placeholders for
image/file; extracted text (or `[Rich Text]` when it is empty) truncated to
100 characters plus an ellipsis for html/rtf; plain text truncated the same
way. -/
def generatePreview (content : String) (format : String) : String :=
  if format == "image" then "[Image]"
  else if format == "file" then "[File]"
  else if format == "html" then
    let plainText := extractCleanTextFromHTML content
    if plainText.length > 100 then jsSubstring plainText 100 ++ "..."
    else if plainText == "" then "[Rich Text]"
    else plainText
  else if format == "rtf" then
    let plainText := extractTextFromRTF content
    if plainText.length > 100 then jsSubstring plainText 100 ++ "..."
    else if plainText == "" then "[Rich Text]"
    else plainText
  else if content.length > 100 then jsSubstring content 100 ++ "..."
  else content

/-- The `asyncCategorizeContent` (`part_005:374-446`): html/rtf always get
`Rich Text` (before the `autoCategories` gate); image/file get their fixed
categories; `autoCategories === false` forces `Uncategorized` for the rest;
otherwise the detected content type is mapped through the category switch.
The setting is an `Option` because `settings.get` may yield `undefined`,
which the strict `=== false` comparison treats like `true`. -/
def asyncCategorizeContent (content : String) (format : String)
    (autoCategories : Option Bool) : String :=
  if format == "html" || format == "rtf" then "Rich Text"
  else if format == "image" then "Images"
  else if format == "file" then "Files"
  else if autoCategories == some false then "Uncategorized"
  else
    let contentType := detectContentType content format
    if contentType == "rich-text" then "Rich Text"
    else if contentType == "url" then "URLs"
    else if contentType == "email" then "Email Addresses"
    else if contentType == "phone" then "Phone Numbers"
    else if contentType == "code" then "Code"
    else "Text"

/-! ### Specification-side reference definitions (for the refinement claims)
and concrete sample data for witnesses and counterexamples. -/

/-- The category filter as a predicate (true = the stage keeps the entry). -/
def categoryPred (category : Option String) (e : ClipboardEntry) : Bool :=
  match category with
  | none => true
  | some c => if c == "" || c == "all" then true else categoryFilterPred c e

/-- The content-type filter as a predicate. -/
def contentTypePred (contentType : Option String) (e : ClipboardEntry) : Bool :=
  match contentType with
  | none => true
  | some c => if c == "" then true else e.format == c

/-- The search filter as a predicate. -/
def searchPred (searchQuery : Option String) (e : ClipboardEntry) : Bool :=
  match searchQuery with
  | none => true
  | some q => if q == "" then true else searchMatches q e

/-- Entries "matching the filters": the conjunction of the three query
filters, as the spec describes them. -/
def queryMatches (options : GetHistoryOptions) (e : ClipboardEntry) : Bool :=
  categoryPred options.category e && contentTypePred options.contentType e &&
    searchPred options.searchQuery e

/-- The spec's description of `query`: take the entries matching the
filters, return **all** pinned matches sorted newest-first, followed by the
`offset..offset+limit` slice of the non-pinned matches sorted newest-first —
pagination never applies to the pinned partition. -/
def querySpec (options : GetHistoryOptions) (entries : List ClipboardEntry) :
    List ClipboardEntry :=
  let matching := entries.filter (queryMatches options)
  let pinned := sortByCreatedAtDesc (matching.filter fun e => e.isPinned)
  let nonPinned := sortByCreatedAtDesc (matching.filter fun e => !e.isPinned)
  pinned ++ (nonPinned.drop options.offset).take options.limit

/-- The spec's description of plain-text content detection: run the URL →
email → phone → code detectors in that order, first match wins, default
`text`. -/
def specPlainTextDetect (content : String) : String :=
  if isURL content then "url"
  else if isEmail content then "email"
  else if isPhoneNumber content then "phone"
  else if isCode content then "code"
  else "text"

/-- A concrete plain-text entry (for witnesses and counterexamples). -/
def sampleEntry (id createdAt : Nat) (content : String) (pinned : Bool) :
    ClipboardEntry :=
  { id := id
    content := content
    contentType := "text"
    format := "text"
    preview := some content
    filePath := none
    appName := some "Unknown App"
    createdAt := createdAt
    updatedAt := createdAt
    isPinned := pinned
    isFavorite := false
    category := some "Text"
    tags := []
    usageCount := 0
    lastUsedAt := none
    note := none }

/-- A concrete entry draft. -/
def sampleDraft : EntryDraft :=
  { content := "hi"
    contentType := "text"
    format := "text"
    preview := some "hi"
    filePath := none
    appName := some "Unknown App"
    isPinned := false
    isFavorite := false
    category := some "Text"
    tags := []
    usageCount := 0
    lastUsedAt := none
    note := none }

/-- The empty store. -/
def emptyStore : StorageState := { entries := [], settings := [], nextId := 1 }

/-- A store of 101 non-pinned entries that all contain the search text `aaa`: more
matches than the default query limit of 100. -/
def overflowStore : List ClipboardEntry :=
  (List.range 101).map fun i => sampleEntry i i "aaa" false

/-- A small store for the search witness: two matches for `beta` (one of
them pinned, matched case-insensitively via `content`), one non-match. -/
def searchStore : List ClipboardEntry :=
  [sampleEntry 1 10 "alpha beta" false, sampleEntry 2 20 "gamma" false,
    sampleEntry 3 30 "Beta Max" true]

/-- One pinned entry (oldest of all) plus 21 non-pinned entries: inserting
to a limit of 20 must evict exactly the oldest non-pinned entry and leave
the pinned one alone. -/
def evictStore : List ClipboardEntry :=
  sampleEntry 100 0 "pinned" true ::
    ((List.range 21).map fun i => sampleEntry i (i + 1) "e" false)

/-- An entry whose `contentType` is `url` but whose `format` is `text`. -/
def urlTypedEntry : ClipboardEntry :=
  { sampleEntry 1 10 "https://example.com" false with contentType := "url" }

/-- A 101-character plain text. -/
def longText : String := String.mk (List.replicate 101 'a')

instance : IsTotal ClipboardEntry fun a b => a.createdAt ≤ b.createdAt :=
  ⟨fun a b => Nat.le_total a.createdAt b.createdAt⟩

instance : IsTrans ClipboardEntry fun a b => a.createdAt ≤ b.createdAt :=
  ⟨fun _ _ _ h1 h2 => Nat.le_trans h1 h2⟩

/-! ## Theorems -/

theorem clampLimit_eq {M : Nat} (h20 : 20 ≤ M) (h100 : M ≤ 100) :
    clampLimit M = M := by
  unfold clampLimit
  omega

/-- Every entry of the excess-oldest slice has its id in `idsToDelete`. -/
theorem mem_take_contains_id (t : List ClipboardEntry) (ex : Nat)
    {e : ClipboardEntry} (he : e ∈ t.take ex) :
    ((t.take ex).map (fun x => x.id)).contains e.id = true := by
  simp only [List.contains, List.elem_iff]
  exact List.mem_map_of_mem _ he

/-- Core bound: after eviction, at most `clampLimit M` non-pinned entries
remain (true of every store state, pathological ids included). -/
theorem getNonPinnedEntryCount_enforceHistoryLimit_le (M : Nat)
    (es : List ClipboardEntry) :
    getNonPinnedEntryCount (enforceHistoryLimit M es) ≤ clampLimit M := by
  unfold getNonPinnedEntryCount enforceHistoryLimit
  simp only []
  split
  case isFalse h => omega
  case isTrue h =>
    set L := clampLimit M with hL
    set np := es.filter (fun e => !e.isPinned) with hnp
    set n := np.length with hn
    set t := sortByCreatedAtAsc np with ht
    set ids := (t.take (n - L)).map (fun x => x.id) with hids
    rw [List.filter_filter, ← List.countP_eq_length_filter]
    -- the surviving non-pinned entries, counted inside `np`
    have hsurv : (List.countP
        (fun e => !e.isPinned && !ids.contains e.id) es) =
        List.countP (fun e => !ids.contains e.id) np := by
      rw [hnp, List.countP_filter]
      exact List.countP_congr fun e _ => by
        cases e.isPinned <;> cases ids.contains e.id <;> rfl
    rw [hsurv]
    -- counting over the sorted copy
    have hperm : t.Perm np := List.perm_insertionSort _ np
    have hcnt : List.countP (fun e => !ids.contains e.id) np =
        List.countP (fun e => !ids.contains e.id) t :=
      (hperm.countP_eq _).symm
    -- split the sorted copy into the deleted slice and the rest
    have hsplit := List.take_append_drop (n - L) t
    have htlen : t.length = n := by
      rw [ht]; exact List.length_insertionSort _ np
    have htake_len : (t.take (n - L)).length = n - L := by
      rw [List.length_take, htlen]; omega
    have htake_zero :
        List.countP (fun e => !ids.contains e.id) (t.take (n - L)) = 0 := by
      rw [List.countP_eq_zero]
      intro e he
      rw [mem_take_contains_id t (n - L) he]
      decide
    have hdrop_le :
        List.countP (fun e => !ids.contains e.id) (t.drop (n - L)) ≤
          (t.drop (n - L)).length :=
      List.countP_le_length _
    have hdrop_len : (t.drop (n - L)).length = L := by
      rw [List.length_drop, htlen]; omega
    calc List.countP (fun e => !ids.contains e.id) np
        = List.countP (fun e => !ids.contains e.id) t := hcnt
      _ = List.countP (fun e => !ids.contains e.id) (t.take (n - L)) +
          List.countP (fun e => !ids.contains e.id) (t.drop (n - L)) := by
          conv_lhs => rw [← hsplit]
          exact List.countP_append _ _ _
      _ ≤ L := by omega

/-- C1: after any insert of a non-pinned draft with limit
`M ∈ [20, 100]`, the store holds at most `M` non-pinned entries. -/
theorem addClipboardEntry_nonPinned_le_limit (st : StorageState)
    (d : EntryDraft) (M now : Nat) (h20 : 20 ≤ M) (h100 : M ≤ 100)
    (hp : d.isPinned = false) :
    getNonPinnedEntryCount (addClipboardEntry d M now st).2.entries ≤ M := by
  unfold addClipboardEntry
  simp only [hp, Bool.not_false, if_pos]
  have h := getNonPinnedEntryCount_enforceHistoryLimit_le M
    (draftToEntry d st.nextId now :: st.entries)
  rwa [clampLimit_eq h20 h100] at h

/-- Witness for C1 at a concrete input. -/
theorem addClipboardEntry_nonPinned_le_limit_witness :
    getNonPinnedEntryCount
      (addClipboardEntry sampleDraft 20 5 emptyStore).2.entries ≤ 20 :=
  addClipboardEntry_nonPinned_le_limit emptyStore sampleDraft 20 5
    (by decide) (by decide) (by decide)

/-- C8: `settings:set` with key `maxHistoryItems` runs eviction with the new
value on the spot (first conjunct), so the number of non-pinned entries is at
once bounded by the clamped new value (second conjunct) — not only after
later inserts. -/
theorem settingsSet_maxHistoryItems_reenforces (st : StorageState) (v : Nat) :
    (settingsSetHandler "maxHistoryItems" v st).entries =
      enforceHistoryLimit v st.entries ∧
    getNonPinnedEntryCount
        (settingsSetHandler "maxHistoryItems" v st).entries ≤ clampLimit v :=
  ⟨rfl, getNonPinnedEntryCount_enforceHistoryLimit_le v st.entries⟩

/-- C6: html/rtf formats are always categorized `Rich Text`, whatever the
`autoCategories` setting holds; with `autoCategories = false`, plain text is
categorized `Uncategorized` instead. -/
theorem asyncCategorizeContent_richText_forced (content : String)
    (autoCategories : Option Bool) :
    asyncCategorizeContent content "html" autoCategories = "Rich Text" ∧
    asyncCategorizeContent content "rtf" autoCategories = "Rich Text" ∧
    asyncCategorizeContent content "text" (some false) = "Uncategorized" :=
  ⟨rfl, rfl, rfl⟩

theorem length_jsSubstring (s : String) (n : Nat) :
    (jsSubstring s n).length = min n s.length := by
  cases s with
  | mk data => simp [jsSubstring, String.length]

theorem length_truncated_le (s : String) :
    (jsSubstring s 100 ++ "...").length ≤ 103 := by
  rw [String.length_append, length_jsSubstring]
  have h3 : ("..." : String).length = 3 := rfl
  rw [h3]
  have := Nat.min_le_left 100 s.length
  omega

/-- C5 (amended): a preview is at most 103 characters (100 plus the
appended `...` ellipsis); image/file formats give fixed placeholders; plain
text is returned whole when it has at most 100 characters and otherwise
truncated to its first 100 characters plus `...`. -/
theorem generatePreview_spec (content format : String) :
    (generatePreview content format).length ≤ 103 ∧
    (format = "image" → generatePreview content format = "[Image]") ∧
    (format = "file" → generatePreview content format = "[File]") ∧
    (format ≠ "image" → format ≠ "file" → format ≠ "html" → format ≠ "rtf" →
      (content.length ≤ 100 → generatePreview content format = content) ∧
      (100 < content.length →
        generatePreview content format = jsSubstring content 100 ++ "...")) := by
  refine ⟨?_, ?_, ?_, ?_⟩
  · simp only [generatePreview]
    repeat' split
    all_goals first
      | omega
      | exact length_truncated_le _
      | decide
  · intro h; subst h; rfl
  · intro h; subst h; rfl
  · intro h1 h2 h3 h4
    have e1 : (format == "image") = false := beq_eq_false_iff_ne.mpr h1
    have e2 : (format == "file") = false := beq_eq_false_iff_ne.mpr h2
    have e3 : (format == "html") = false := beq_eq_false_iff_ne.mpr h3
    have e4 : (format == "rtf") = false := beq_eq_false_iff_ne.mpr h4
    simp only [generatePreview, e1, e2, e3, e4, Bool.false_eq_true, if_false]
    constructor
    · intro hlen
      rw [if_neg (by omega)]
    · intro hlen
      rw [if_pos (by omega)]

/-- Counterexample to C5 as stated: a 101-character plain text produces a
103-character preview (100 characters plus the 3-character ellipsis), so the
preview is not "at most 100 characters long". -/
theorem generatePreview_longText_exceeds_100 :
    ¬((generatePreview longText "text").length ≤ 100) := by decide

/-- Witness for C5 (amended) at a concrete input. -/
theorem generatePreview_spec_witness :
    (generatePreview "hello" "text").length ≤ 103 ∧
    generatePreview "hello" "text" = "hello" :=
  ⟨(generatePreview_spec "hello" "text").1,
    ((generatePreview_spec "hello" "text").2.2.2 (by decide) (by decide)
      (by decide) (by decide)).1 (by decide)⟩

/-- C7: image/file/html/rtf formats map to their fixed content types for
every content string (the content is never inspected); any other format
falls through to the spec's detector cascade URL → email → phone → code →
`text`, first match winning. -/
theorem detectContentType_dispatch (content format : String) :
    (format = "image" → detectContentType content format = "image") ∧
    (format = "file" → detectContentType content format = "file") ∧
    (format = "html" → detectContentType content format = "rich-text") ∧
    (format = "rtf" → detectContentType content format = "rich-text") ∧
    (format ≠ "image" → format ≠ "file" → format ≠ "html" → format ≠ "rtf" →
      detectContentType content format = specPlainTextDetect content) := by
  refine ⟨fun h => by subst h; rfl, fun h => by subst h; rfl,
    fun h => by subst h; rfl, fun h => by subst h; rfl, ?_⟩
  intro h1 h2 h3 h4
  have e1 : (format == "image") = false := beq_eq_false_iff_ne.mpr h1
  have e2 : (format == "file") = false := beq_eq_false_iff_ne.mpr h2
  have e3 : (format == "html") = false := beq_eq_false_iff_ne.mpr h3
  have e4 : (format == "rtf") = false := beq_eq_false_iff_ne.mpr h4
  simp only [detectContentType, specPlainTextDetect, e1, e2, e3, e4,
    Bool.false_eq_true, if_false]

/-- Witness for C7: the spec's URL scenario, evaluated through the real
detectors. -/
theorem detectContentType_dispatch_witness :
    detectContentType "https://example.com/path?x=1" "text" = "url" := by
  have h := (detectContentType_dispatch "https://example.com/path?x=1"
    "text").2.2.2.2 (by decide) (by decide) (by decide) (by decide)
  rw [h]
  decide

/-- C9: update, delete and pin on an id absent from the store return their
null/false sentinels and leave the entry array unchanged. -/
theorem unknown_id_sentinels (id now : Nat)
    (updates : ClipboardEntry → ClipboardEntry)
    (entries : List ClipboardEntry) (h : ∀ e ∈ entries, e.id ≠ id) :
    updateClipboardEntry id updates now entries = (none, entries) ∧
    deleteClipboardEntry id entries = (false, entries) ∧
    pinClipboardEntry id now entries = (none, entries) := by
  have hfind : entries.findIdx? (fun e => e.id == id) = none := by
    rw [List.findIdx?_eq_none_iff]
    intro e he
    exact beq_eq_false_iff_ne.mpr (h e he)
  have hfilter : entries.filter (fun e => !(e.id == id)) = entries := by
    rw [List.filter_eq_self]
    intro e he
    rw [beq_eq_false_iff_ne.mpr (h e he)]
    rfl
  refine ⟨?_, ?_, ?_⟩
  · unfold updateClipboardEntry
    rw [hfind]
  · unfold deleteClipboardEntry
    simp only [hfilter]
    simp
  · unfold pinClipboardEntry
    rw [hfind]

/-- Witness for C9 at a concrete input. -/
theorem unknown_id_sentinels_witness :
    updateClipboardEntry 2 id 99 [sampleEntry 1 10 "x" false] =
      (none, [sampleEntry 1 10 "x" false]) ∧
    deleteClipboardEntry 2 [sampleEntry 1 10 "x" false] =
      (false, [sampleEntry 1 10 "x" false]) ∧
    pinClipboardEntry 2 99 [sampleEntry 1 10 "x" false] =
      (none, [sampleEntry 1 10 "x" false]) :=
  unknown_id_sentinels 2 99 id [sampleEntry 1 10 "x" false] (by decide)

theorem filterByCategory_eq_filter (category : Option String)
    (l : List ClipboardEntry) :
    filterByCategory category l = l.filter (categoryPred category) := by
  cases category with
  | none => exact (List.filter_eq_self.mpr fun a _ => rfl).symm
  | some c =>
    by_cases h : (c == "" || c == "all") = true
    · rw [filterByCategory, if_pos h]
      exact (List.filter_eq_self.mpr fun a _ => by
        simp [categoryPred, h]).symm
    · rw [Bool.not_eq_true] at h
      rw [filterByCategory, if_neg (by simp [h])]
      exact List.filter_congr fun a _ => by simp [categoryPred, h]

theorem filterByContentType_eq_filter (contentType : Option String)
    (l : List ClipboardEntry) :
    filterByContentType contentType l =
      l.filter (contentTypePred contentType) := by
  cases contentType with
  | none => exact (List.filter_eq_self.mpr fun a _ => rfl).symm
  | some c =>
    by_cases h : (c == "") = true
    · rw [filterByContentType, if_pos h]
      exact (List.filter_eq_self.mpr fun a _ => by
        simp [contentTypePred, h]).symm
    · rw [Bool.not_eq_true] at h
      rw [filterByContentType, if_neg (by simp [h])]
      exact List.filter_congr fun a _ => by simp [contentTypePred, h]

theorem filterBySearch_eq_filter (searchQuery : Option String)
    (l : List ClipboardEntry) :
    filterBySearch searchQuery l = l.filter (searchPred searchQuery) := by
  cases searchQuery with
  | none => exact (List.filter_eq_self.mpr fun a _ => rfl).symm
  | some q =>
    by_cases h : (q == "") = true
    · rw [filterBySearch, if_pos h]
      exact (List.filter_eq_self.mpr fun a _ => by simp [searchPred, h]).symm
    · rw [Bool.not_eq_true] at h
      rw [filterBySearch, if_neg (by simp [h])]
      exact List.filter_congr fun a _ => by simp [searchPred, h]

/-- The three sequential filter stages equal one filter by the conjunction
of the three predicates. -/
theorem query_filtered_eq (options : GetHistoryOptions)
    (entries : List ClipboardEntry) :
    filterBySearch options.searchQuery
      (filterByContentType options.contentType
        (filterByCategory options.category entries)) =
      entries.filter (queryMatches options) := by
  rw [filterByCategory_eq_filter, filterByContentType_eq_filter,
    filterBySearch_eq_filter, List.filter_filter, List.filter_filter]
  refine List.filter_congr fun e _ => ?_
  unfold queryMatches
  cases categoryPred options.category e <;>
    cases contentTypePred options.contentType e <;>
      cases searchPred options.searchQuery e <;> rfl

/-- C3: the query is exactly its specification — all pinned matches sorted
newest-first, then the `offset..offset+limit` slice of the non-pinned
matches sorted newest-first; `offset` and `limit` never touch the pinned
partition. -/
theorem getClipboardHistory_eq_querySpec (options : GetHistoryOptions)
    (entries : List ClipboardEntry) :
    getClipboardHistory options entries = querySpec options entries := by
  unfold getClipboardHistory querySpec
  rw [query_filtered_eq]

/-- C4 (amended): when only a non-empty search query is given (offset 0) and
the non-pinned matches fit inside the limit, the query returns exactly — as
a permutation — the entries in which the query occurs case-insensitively in
`content`, `preview`, `category` or `note`. -/
theorem getClipboardHistory_search_exact (es : List ClipboardEntry)
    (q : String) (lim : Nat) (hq : q ≠ "")
    (hlim : ((es.filter (searchMatches q)).filter
      (fun e => !e.isPinned)).length ≤ lim) :
    (getClipboardHistory
        { limit := lim, offset := 0, category := none, contentType := none,
          searchQuery := some q } es).Perm
      (es.filter (searchMatches q)) := by
  have hq' : (q == "") = false := beq_eq_false_iff_ne.mpr hq
  unfold getClipboardHistory
  simp only [filterByCategory, filterByContentType, filterBySearch, hq',
    Bool.false_eq_true, if_false, List.drop_zero]
  rw [List.take_of_length_le]
  · exact ((List.perm_insertionSort _ _).append
      (List.perm_insertionSort _ _)).trans (List.filter_append_perm _ _)
  · unfold sortByCreatedAtDesc
    rw [List.length_insertionSort]
    exact hlim

/-- Counterexample to C4 as stated: with 101 non-pinned entries all matching
the query, the default limit of 100 drops the oldest match, so the result is
not "exactly those entries" containing the query. -/
theorem getClipboardHistory_search_drops_match :
    sampleEntry 0 0 "aaa" false ∈ overflowStore.filter (searchMatches "aaa") ∧
    sampleEntry 0 0 "aaa" false ∉
      getClipboardHistory { searchQuery := some "aaa" } overflowStore := by
  constructor
  · decide
  · decide

/-- Witness for C4 (amended) at a concrete store. -/
theorem getClipboardHistory_search_exact_witness :
    (getClipboardHistory
        { limit := 100, offset := 0, category := none, contentType := none,
          searchQuery := some "beta" } searchStore).Perm
      (searchStore.filter (searchMatches "beta")) :=
  getClipboardHistory_search_exact searchStore "beta" 100 (by decide)
    (by decide)

theorem mem_of_mem_filterByCategory {cat : Option String}
    {l : List ClipboardEntry} {e : ClipboardEntry}
    (h : e ∈ filterByCategory cat l) : e ∈ l := by
  rw [filterByCategory_eq_filter] at h
  exact (List.mem_filter.mp h).1

theorem mem_of_mem_filterBySearch {sq : Option String}
    {l : List ClipboardEntry} {e : ClipboardEntry}
    (h : e ∈ filterBySearch sq l) : e ∈ l := by
  rw [filterBySearch_eq_filter] at h
  exact (List.mem_filter.mp h).1

theorem filterBySearch_nil (sq : Option String) : filterBySearch sq [] = [] := by
  cases sq with
  | none => rfl
  | some q => simp [filterBySearch]

/-- C10: the `contentType` filter compares against the entry's `format`
field: every entry the query returns has `format = ct`, and when no stored
entry has `format = ct` the query returns nothing — even when entries whose
`contentType` field equals `ct` exist. -/
theorem contentType_filter_uses_format (options : GetHistoryOptions)
    (es : List ClipboardEntry) (ct : String)
    (hct : options.contentType = some ct) (hne : ct ≠ "") :
    (∀ e ∈ getClipboardHistory options es, e.format = ct) ∧
    ((∀ e ∈ es, e.format ≠ ct) → getClipboardHistory options es = []) := by
  have hne' : (ct == "") = false := beq_eq_false_iff_ne.mpr hne
  constructor
  · intro e he
    unfold getClipboardHistory at he
    rcases List.mem_append.mp he with hp | hn
    · have h1 : e ∈ filterBySearch options.searchQuery
          (filterByContentType options.contentType
            (filterByCategory options.category es)) :=
        (List.mem_filter.mp ((List.mem_insertionSort _).mp hp)).1
      have h2 := mem_of_mem_filterBySearch h1
      rw [hct] at h2
      simp only [filterByContentType, hne', Bool.false_eq_true, if_false] at h2
      exact eq_of_beq (List.mem_filter.mp h2).2
    · have h0 : e ∈ sortByCreatedAtDesc
          ((filterBySearch options.searchQuery
            (filterByContentType options.contentType
              (filterByCategory options.category es))).filter
                fun e => !e.isPinned) :=
        (List.drop_sublist _ _).subset ((List.take_sublist _ _).subset hn)
      have h1 := (List.mem_filter.mp ((List.mem_insertionSort _).mp h0)).1
      have h2 := mem_of_mem_filterBySearch h1
      rw [hct] at h2
      simp only [filterByContentType, hne', Bool.false_eq_true, if_false] at h2
      exact eq_of_beq (List.mem_filter.mp h2).2
  · intro hall
    have hmid : filterByContentType options.contentType
        (filterByCategory options.category es) = [] := by
      rw [hct]
      simp only [filterByContentType, hne', Bool.false_eq_true, if_false]
      rw [List.filter_eq_nil_iff]
      intro e he
      rw [beq_eq_false_iff_ne.mpr (hall e (mem_of_mem_filterByCategory he))]
      decide
    unfold getClipboardHistory
    rw [hmid, filterBySearch_nil]
    simp [sortByCreatedAtDesc]

/-- Witness for C10 at a concrete store: one entry with `contentType = "url"`
but `format = "text"`; querying for contentType `url` returns nothing. -/
theorem contentType_filter_uses_format_witness :
    (∀ e ∈ getClipboardHistory { contentType := some "url" } [urlTypedEntry],
      e.format = "url") ∧
    ((∀ e ∈ [urlTypedEntry], e.format ≠ "url") →
      getClipboardHistory { contentType := some "url" } [urlTypedEntry] = []) :=
  contentType_filter_uses_format { contentType := some "url" } [urlTypedEntry]
    "url" rfl (by decide)

theorem enforceHistoryLimit_eq_of_le (M : Nat) (es : List ClipboardEntry)
    (h : ¬((es.filter fun e => !e.isPinned).length > clampLimit M)) :
    enforceHistoryLimit M es = es := by
  simp only [enforceHistoryLimit]
  rw [if_neg h]

theorem enforceHistoryLimit_eq_of_gt (M : Nat) (es : List ClipboardEntry)
    (h : (es.filter fun e => !e.isPinned).length > clampLimit M) :
    enforceHistoryLimit M es = es.filter (fun e =>
      !(((sortByCreatedAtAsc (es.filter fun e => !e.isPinned)).take
        ((es.filter fun e => !e.isPinned).length - clampLimit M)).map
          (fun x => x.id)).contains e.id) := by
  simp only [enforceHistoryLimit]
  rw [if_pos h]

theorem contains_id_iff (l : List ClipboardEntry) (i : Nat) :
    ((l.map fun x => x.id).contains i) = true ↔ ∃ a ∈ l, a.id = i := by
  simp [List.contains, List.elem_iff]

/-- C2: under the store's id-uniqueness invariant (and pairwise-distinct
creation times on the non-pinned entries, needed for "the oldest" to be
well-defined), eviction never removes a pinned entry; and when the
non-pinned count exceeds the clamped limit, exactly `clampLimit M`
non-pinned entries remain, a non-pinned entry surviving precisely when
fewer than `clampLimit M` non-pinned entries are newer than it — i.e. the
`count − limit` oldest are removed and the limit-many newest are kept. -/
theorem enforceHistoryLimit_evicts_oldest (es : List ClipboardEntry) (M : Nat)
    (hids : (es.map fun e => e.id).Nodup)
    (hdates : ((es.filter fun e => !e.isPinned).map
      fun e => e.createdAt).Nodup) :
    (enforceHistoryLimit M es).filter (fun e => e.isPinned) =
      es.filter (fun e => e.isPinned) ∧
    (clampLimit M < (es.filter fun e => !e.isPinned).length →
      ((enforceHistoryLimit M es).filter fun e => !e.isPinned).length =
        clampLimit M ∧
      ∀ e ∈ es.filter (fun e => !e.isPinned),
        (e ∈ enforceHistoryLimit M es ↔
          (es.filter fun e => !e.isPinned).countP
            (fun x => decide (e.createdAt < x.createdAt)) < clampLimit M)) := by
  by_cases hover : (es.filter fun e => !e.isPinned).length > clampLimit M
  case neg =>
    rw [enforceHistoryLimit_eq_of_le M es hover]
    exact ⟨rfl, fun h => absurd h hover⟩
  case pos =>
    have hres := enforceHistoryLimit_eq_of_gt M es hover
    set L := clampLimit M with hL
    set np := es.filter fun e => !e.isPinned with hnp
    set n := np.length with hn
    set ex := n - L with hex
    set t := sortByCreatedAtAsc np with ht
    set A := t.take ex with hA
    set B := t.drop ex with hB
    set ids := A.map (fun x => x.id) with hids2
    -- basic structure of the sorted copy
    have hperm : t.Perm np := List.perm_insertionSort _ np
    have hAB : A ++ B = t := List.take_append_drop ex t
    have hsorted : t.Pairwise fun a b => a.createdAt ≤ b.createdAt := by
      rw [ht]
      unfold sortByCreatedAtAsc
      exact List.sorted_insertionSort _ np
    have hpair : ∀ a ∈ A, ∀ b ∈ B, a.createdAt ≤ b.createdAt := by
      have := hAB ▸ hsorted
      exact (List.pairwise_append.mp this).2.2
    have htlen : t.length = n := List.length_insertionSort _ np
    have hexn : ex ≤ n := by omega
    have hlenA : A.length = ex := by
      rw [hA, List.length_take, htlen]; omega
    have hlenB : B.length = L := by
      rw [hB, List.length_drop, htlen]; omega
    -- uniqueness transport
    have hesnd : es.Nodup := List.Nodup.of_map _ hids
    have hnpnd : np.Nodup := (List.filter_sublist es).nodup hesnd
    have htnd : t.Nodup := (hperm.nodup_iff).mpr hnpnd
    have hdisj : A.Disjoint B := by
      have := hAB ▸ htnd
      exact (List.nodup_append.mp this).2.2
    have hmem_t_es : ∀ x ∈ t, x ∈ es := fun x hx =>
      (List.mem_filter.mp (hperm.mem_iff.mp hx)).1
    have hmem_t_np : ∀ x ∈ t, x ∈ np := fun x hx => hperm.mem_iff.mp hx
    -- the three id facts
    have hS1 : ∀ e ∈ A, ids.contains e.id = true := fun e he =>
      mem_take_contains_id t ex he
    have hS2 : ∀ e ∈ B, ids.contains e.id = false := by
      intro e he
      by_contra hc
      rw [Bool.not_eq_false, contains_id_iff] at hc
      obtain ⟨a, haA, haid⟩ := hc
      have ha_es : a ∈ es := hmem_t_es a (hAB ▸ List.mem_append_left B haA)
      have he_es : e ∈ es := hmem_t_es e (hAB ▸ List.mem_append_right A he)
      have : a = e := List.inj_on_of_nodup_map hids ha_es he_es haid
      exact hdisj haA (this ▸ he)
    have hS3 : ∀ p ∈ es, p.isPinned = true → ids.contains p.id = false := by
      intro p hp hpin
      by_contra hc
      rw [Bool.not_eq_false, contains_id_iff] at hc
      obtain ⟨a, haA, haid⟩ := hc
      have ha_t : a ∈ t := hAB ▸ List.mem_append_left B haA
      have ha_np : a ∈ np := hmem_t_np a ha_t
      have ha_es : a ∈ es := hmem_t_es a ha_t
      have hnp2 : (!a.isPinned) = true := (List.mem_filter.mp ha_np).2
      have : a = p := List.inj_on_of_nodup_map hids ha_es hp haid
      rw [this, hpin] at hnp2
      exact Bool.false_ne_true hnp2
    -- counting the survivors inside np
    have hcount : ((es.filter fun e =>
        !ids.contains e.id).filter fun e => !e.isPinned).length =
        List.countP (fun e => !ids.contains e.id) np := by
      rw [List.filter_filter, ← List.countP_eq_length_filter, hnp,
        List.countP_filter]
      exact List.countP_congr fun e _ => by
        cases e.isPinned <;> cases ids.contains e.id <;> rfl
    have hsplitc : List.countP (fun e => !ids.contains e.id) np =
        List.countP (fun e => !ids.contains e.id) A +
        List.countP (fun e => !ids.contains e.id) B := by
      rw [← (hperm.countP_eq _), ← hAB, List.countP_append]
    have hcA : List.countP (fun e => !ids.contains e.id) A = 0 := by
      rw [List.countP_eq_zero]
      intro a ha
      rw [hS1 a ha]
      decide
    have hcB : List.countP (fun e => !ids.contains e.id) B = B.length := by
      rw [List.countP_eq_length]
      intro b hb
      rw [hS2 b hb]
      rfl
    constructor
    · -- pinned entries survive untouched
      rw [hres, List.filter_filter]
      exact List.filter_congr fun e he => by
        cases hp : e.isPinned
        · rfl
        · rw [hS3 e he hp]
          rfl
    · intro _
      constructor
      · -- exactly L non-pinned entries remain
        rw [hres, hcount, hsplitc, hcA, hcB, hlenB]
        omega
      · -- a non-pinned entry survives iff fewer than L are newer
        intro e he
        have he_t : e ∈ t := hperm.mem_iff.mpr (hnp ▸ he)
        have he_es : e ∈ es := (List.mem_filter.mp (hnp ▸ he)).1
        have hmemiff : e ∈ enforceHistoryLimit M es ↔
            (!ids.contains e.id) = true := by
          rw [hres, List.mem_filter]
          exact ⟨fun h => h.2, fun h => ⟨he_es, h⟩⟩
        have hcnt_split : List.countP
            (fun x => decide (e.createdAt < x.createdAt)) np =
            List.countP (fun x => decide (e.createdAt < x.createdAt)) A +
            List.countP (fun x => decide (e.createdAt < x.createdAt)) B := by
          rw [← (hperm.countP_eq _), ← hAB, List.countP_append]
        rcases List.mem_append.mp (hAB ▸ he_t) with heA | heB
        · -- deleted case: e is among the excess oldest
          have hlhs : ¬(e ∈ enforceHistoryLimit M es) := by
            rw [hmemiff, hS1 e heA]
            decide
          have hBall : List.countP
              (fun x => decide (e.createdAt < x.createdAt)) B = B.length := by
            rw [List.countP_eq_length]
            intro b hb
            have hle := hpair e heA b hb
            have hne : e.createdAt ≠ b.createdAt := by
              intro hEq
              have hb_np : b ∈ np := hmem_t_np b (hAB ▸ List.mem_append_right A hb)
              have he_np : e ∈ np := hnp ▸ he
              have : e = b := List.inj_on_of_nodup_map hdates
                (hnp ▸ he_np) (hnp ▸ hb_np) hEq
              exact hdisj heA (this ▸ hb)
            simp only [decide_eq_true_eq]
            omega
          have hge : L ≤ List.countP
              (fun x => decide (e.createdAt < x.createdAt)) np := by
            rw [hcnt_split, hBall, hlenB]
            omega
          constructor
          · intro h; exact absurd h hlhs
          · intro h
            rw [hnp] at hge
            omega
        · -- surviving case: e is among the newest L
          have hlhs : e ∈ enforceHistoryLimit M es := by
            rw [hmemiff, hS2 e heB]
            rfl
          have hA0 : List.countP
              (fun x => decide (e.createdAt < x.createdAt)) A = 0 := by
            rw [List.countP_eq_zero]
            intro a ha
            have hle := hpair a ha e heB
            simp only [decide_eq_true_eq]
            omega
          have hBlt : List.countP
              (fun x => decide (e.createdAt < x.createdAt)) B < B.length := by
            refine Nat.lt_of_le_of_ne (List.countP_le_length _) ?_
            intro hEq
            have := List.countP_eq_length.mp hEq e heB
            simp only [decide_eq_true_eq] at this
            omega
          have hlt : List.countP
              (fun x => decide (e.createdAt < x.createdAt)) np < L := by
            rw [hcnt_split, hA0, hlenB] at *
            omega
          constructor
          · intro _
            rw [hnp] at hlt
            exact hlt
          · intro _
            exact hlhs

/-- Witness for C2 at a concrete store: one pinned plus 21 distinct
non-pinned entries, limit 20 — exactly 20 non-pinned entries remain. -/
theorem enforceHistoryLimit_evicts_oldest_witness :
    ((enforceHistoryLimit 20 evictStore).filter fun e => !e.isPinned).length =
      20 :=
  ((enforceHistoryLimit_evicts_oldest evictStore 20 (by decide)
    (by decide)).2 (by decide)).1

end ClipSync
